import Mathlib

/-!
Shallow embedding of the wasm-vfs in-memory virtual file system.

The syscall layer is translated from `src/system.rs` statement by
statement.  The bounded slot map is translated from
`src/collections/mod.rs`.  Path handling is translated from
`src/path/mod.rs`.  The `FileSystem` value that `src/system.rs`
manipulates (fields `inodes`, `path_map`, `files`, `next_inode_number`,
`current_directory`, methods `lookup_inode_by_path` and `create_file`)
is not present in the repository sources (`src/filesystem.rs` holds an
older, incompatible implementation), so those parts are modelled from
the specification, as marked on each definition.

Machine integers are modelled as `Nat`/`Int` with explicit reductions
modulo `2^64` where Rust performs an `as usize` / `as i64` cast.
-/

namespace WasmVfs

set_option maxRecDepth 16384

/-- Bytes of a payload are modelled as natural numbers (`u8` values). -/
abbrev Byte := Nat

/-- Reinterpretation of a (sign-extended) integer as a `usize`
(64-bit): the canonical representative modulo `2^64`.  This models
Rust's `x as usize` on an `i64` (or sign-extended `i32`) value. -/
def usizeOfInt (i : Int) : Nat := (i % (2 ^ 64 : Int)).toNat

/-- Reinterpretation of a `u64` value as an `i64`, modelling Rust's
`x as i64`: values at or above `2^63` wrap to negatives. -/
def i64OfNat (n : Nat) : Int :=
  if n % 2 ^ 64 < 2 ^ 63 then ((n % 2 ^ 64 : Nat) : Int)
  else ((n % 2 ^ 64 : Nat) : Int) - 2 ^ 64

/-- Bitwise complement of a 32-bit value, modelling Rust's `!x` on `u32`. -/
def notU32 (n : Nat) : Nat := 2 ^ 32 - 1 - n % 2 ^ 32

/-- Bitwise complement of a 16-bit value, modelling Rust's `!x` on `u16`. -/
def notU16 (n : Nat) : Nat := 2 ^ 16 - 1 - n % 2 ^ 16

/-!
The bounded slot map of `src/collections/mod.rs`: a fixed-length vector
of `Option (K × V)` slots.  `insert` replaces the slot holding an equal
key, otherwise takes the first empty slot, and silently does nothing
when every slot is occupied by another key.  `get`/`remove` scan for
the first slot holding the key; `remove` empties that slot in place;
`get_mut` followed by a field assignment is modelled by `hmUpdate`,
which rewrites the value in its slot.
-/

/-- Slot-map lookup, translated from `HashMap::get` in
`src/collections/mod.rs`. -/
def hmGet {K V : Type} [DecidableEq K] : List (Option (K × V)) → K → Option V
  | [], _ => none
  | none :: rest, k => hmGet rest k
  | some (k', v) :: rest, k => if k' = k then some v else hmGet rest k

/-- Slot-map insertion, translated from `HashMap::insert` in
`src/collections/mod.rs`: replace an equal key in place, otherwise use
the first empty slot, otherwise drop the entry. -/
def hmInsert {K V : Type} [DecidableEq K] : List (Option (K × V)) → K → V → List (Option (K × V))
  | [], _, _ => []
  | none :: rest, k, v => some (k, v) :: rest
  | some (k', v') :: rest, k, v =>
      if k' = k then some (k, v) :: rest else some (k', v') :: hmInsert rest k v

/-- Slot-map removal, translated from `HashMap::remove` in
`src/collections/mod.rs`: the first slot holding the key becomes empty. -/
def hmRemove {K V : Type} [DecidableEq K] : List (Option (K × V)) → K → List (Option (K × V))
  | [], _ => []
  | none :: rest, k => none :: hmRemove rest k
  | some (k', v) :: rest, k =>
      if k' = k then none :: rest else some (k', v) :: hmRemove rest k

/-- In-place value rewrite, modelling `HashMap::get_mut` followed by a
mutation of the value: the slot keeps its position. -/
def hmUpdate {K V : Type} [DecidableEq K] : List (Option (K × V)) → K → (V → V) → List (Option (K × V))
  | [], _, _ => []
  | none :: rest, k, f => none :: hmUpdate rest k f
  | some (k', v) :: rest, k, f =>
      if k' = k then some (k', f v) :: rest else some (k', v) :: hmUpdate rest k f

/-!
Association lists model the two unbounded maps of the spec-modelled
`FileSystem`: the path index (`path_map`) and the file-data map
(`files`).  Insertion replaces the first entry with an equal key in
place, otherwise appends; lookup and removal use the first match.
-/

/-- Association-list lookup (first match). -/
def alGet {K V : Type} [DecidableEq K] : List (K × V) → K → Option V
  | [], _ => none
  | (k', v) :: rest, k => if k' = k then some v else alGet rest k

/-- Association-list insertion: replace the first equal key in place,
otherwise append at the end. -/
def alInsert {K V : Type} [DecidableEq K] : List (K × V) → K → V → List (K × V)
  | [], k, v => [(k, v)]
  | (k', v') :: rest, k, v =>
      if k' = k then (k, v) :: rest else (k', v') :: alInsert rest k v

/-- Association-list removal of the first entry with the key. -/
def alRemove {K V : Type} [DecidableEq K] : List (K × V) → K → List (K × V)
  | [], _ => []
  | (k', v) :: rest, k => if k' = k then rest else (k', v) :: alRemove rest k

/-- In-place value rewrite of the first entry with the key, modelling a
`get_mut` followed by a mutation. -/
def alUpdate {K V : Type} [DecidableEq K] : List (K × V) → K → (V → V) → List (K × V)
  | [], _, _ => []
  | (k', v) :: rest, k, f =>
      if k' = k then (k', f v) :: rest else (k', v) :: alUpdate rest k f

/-- Membership test, translated from `HashMap::contains_key`. -/
def alContains {K V : Type} [DecidableEq K] (m : List (K × V)) (k : K) : Bool :=
  (alGet m k).isSome

/-!
Path handling, translated from `src/path/mod.rs`.  A `PathBuf` wraps a
plain string; only `is_absolute` and `join` are needed here.
-/

/-- Translated from `PathBuf::is_absolute`: the string starts with a
slash.  Stated on the character list so that it computes by kernel
reduction. -/
def pathIsAbsolute (s : String) : Bool :=
  match s.data with
  | [] => false
  | c :: _ => c = '/'

/-- The string ends with a slash (`ends_with('/')` in the source),
stated on the character list. -/
def pathEndsWithSlash (s : String) : Bool :=
  match s.data.getLast? with
  | some c => c = '/'
  | none => false

/-- Translated from `PathBuf::join`: an absolute right operand wins;
otherwise a separating slash is inserted unless the receiver already
ends in a slash or is empty. -/
def pathJoin (base other : String) : String :=
  if pathIsAbsolute other then other
  else
    let joined :=
      if !pathEndsWithSlash base && !base.data.isEmpty then base ++ "/" else base
    joined ++ other

/-- Inode kinds, as in `src/filesystem.rs` (`InodeKind`). -/
inductive InodeKind : Type where
  | file : InodeKind
  | directory : InodeKind
  | symbolicLink (target : String) : InodeKind
deriving DecidableEq, Repr

/-- Inode metadata record.  Modelled from the spec: `Inode` of the
`FileSystem` used by `src/system.rs` is absent from the sources; the
spec gives `number`, `size`, `permissions`, `user_id`, `group_id`,
`ctime/mtime/atime`, `kind`.  The permission triples are represented by
their 9-bit mode (the spec states the conversion between the triples
and the 9-bit mode is bidirectional). -/
structure Inode : Type where
  number : Nat
  size : Nat
  permissions : Nat
  user_id : Nat
  group_id : Nat
  ctime : Nat
  mtime : Nat
  atime : Nat
  kind : InodeKind
deriving DecidableEq, Repr

/-- Default inode, as produced by Rust's `Inode::default()`: all fields
zero and kind `File` (the `#[default]` variant). -/
def Inode.zero : Inode :=
  { number := 0, size := 0, permissions := 0, user_id := 0, group_id := 0
    ctime := 0, mtime := 0, atime := 0, kind := InodeKind.file }

instance : Inhabited Inode := ⟨Inode.zero⟩

/-- The file-system store.  Modelled from the spec: an ordered sequence
of inodes (index = inode number), a monotonic `next_inode_number`, the
current working directory, the file-data mapping `inode_number → bytes`
and the path index `absolute_path → inode_number`. -/
structure FileSystem : Type where
  inodes : List Inode
  next_inode_number : Nat
  current_directory : String
  files : List (Nat × List Byte)
  path_map : List (String × Nat)
deriving DecidableEq, Repr

/-- Modelled from the spec: `lookup(path)` consults the path index
only and never auto-creates. -/
def FileSystem.lookup_inode_by_path (fs : FileSystem) (path : String) : Option Nat :=
  alGet fs.path_map path

/-- Pad the inode table with default inodes until it has an entry at
index `n` (the `while inodes.len() <= n push default` idiom of
`Proc::insert_directory_entry` in `src/system.rs`). -/
def padInodes (inodes : List Inode) (n : Nat) : List Inode :=
  inodes ++ List.replicate (n + 1 - inodes.length) Inode.zero

/-- Rewrite the inode at index `n` when it exists, modelling
`fs.inodes.get_mut(n)` followed by a field assignment. -/
def updInode (inodes : List Inode) (n : Nat) (f : Inode → Inode) : List Inode :=
  match inodes[n]? with
  | some i => inodes.set n (f i)
  | none => inodes

/-- Modelled from the spec: `create_file(path, mode)` allocates a new
inode number, materializes a File inode with permissions derived from
`mode & 0o777`, registers the path in the path index, and installs an
empty payload.  Returns the allocated number with the new store. -/
def FileSystem.create_file (fs : FileSystem) (path : String) (mode : Nat) : Nat × FileSystem :=
  let n := fs.next_inode_number
  let inode : Inode :=
    { number := n, size := 0, permissions := Nat.land mode 0o777
      user_id := 0, group_id := 0, ctime := 0, mtime := 0, atime := 0
      kind := InodeKind.file }
  let fs2 : FileSystem :=
    { fs with
      inodes := (padInodes fs.inodes n).set n inode
      next_inode_number := n + 1
      path_map := alInsert fs.path_map path n
      files := alInsert fs.files n [] }
  (n, fs2)

/-- Modelled from the spec: the initial store holds the root directory
`"/"` at inode 0, an empty payload for it, and `next_inode_number = 1`;
the current directory is `"/"`. -/
def FileSystem.initial : FileSystem :=
  { inodes := [{ Inode.zero with kind := InodeKind.directory }]
    next_inode_number := 1
    current_directory := "/"
    files := [(0, [])]
    path_map := [("/", 0)] }

/-- Open-file handle, translated from `OpenFileHandle` in
`src/system.rs`: inode number, position and append flag. -/
structure OpenFileHandle : Type where
  inode_number : Nat
  position : Nat
  append_mode : Bool
deriving DecidableEq, Repr

/-- Process state, translated from `Proc` in `src/system.rs`: the file
system, the 1024-slot FD table, the 256-slot open-file map, the next-FD
hint and the umask.  The stdout line accumulator and the lines emitted
to the host sink are carried explicitly. -/
structure Proc : Type where
  fs : FileSystem
  fdTable : List (Option Nat)
  openFiles : List (Option (Int × OpenFileHandle))
  nextFd : Int
  umaskValue : Nat
  stdoutAccum : List Byte
  stdoutLines : List (List Byte)
deriving DecidableEq, Repr

/-- Translated from `Proc::new`: fresh file system, 1024 empty FD
slots, 256 empty open-file slots (`OPEN_FILES_CAP`), `next_fd = 3`,
umask `0o022`. -/
def Proc.start : Proc :=
  { fs := FileSystem.initial
    fdTable := List.replicate 1024 none
    openFiles := List.replicate 256 none
    nextFd := 3
    umaskValue := 0o022
    stdoutAccum := []
    stdoutLines := [] }

/-- Translated from `Proc::allocate_fd`: scan the FD table in index
order and return the first empty slot at index 3 or above. -/
def allocateFdAux : List (Option Nat) → Nat → Option Nat
  | [], _ => none
  | none :: rest, idx => if 3 ≤ idx then some idx else allocateFdAux rest (idx + 1)
  | some _ :: rest, idx => allocateFdAux rest (idx + 1)

/-- Translated from `Proc::allocate_fd` (entry point). -/
def Proc.allocate_fd (p : Proc) : Option Nat := allocateFdAux p.fdTable 0

/-- Translated from `Proc::get_absolute_path`: an absolute path is kept
as is, a relative path is joined onto the current working directory. -/
def Proc.get_absolute_path (p : Proc) (path : String) : String :=
  if pathIsAbsolute path then path else pathJoin p.fs.current_directory path

/-- Translated from `Proc::set_file_size`: truncate or zero-extend the
payload to the requested size when present, then store the resulting
payload length (0 when no payload exists) into the inode's size. -/
def Proc.set_file_size (p : Proc) (inode_number : Nat) (new_size : Nat) : Proc :=
  let files2 :=
    alUpdate p.fs.files inode_number (fun data =>
      if data.length > new_size then data.take new_size
      else if data.length < new_size then data ++ List.replicate (new_size - data.length) 0
      else data)
  let new_len := ((alGet files2 inode_number).map List.length).getD 0
  { p with fs := { p.fs with
      files := files2
      inodes := updInode p.fs.inodes inode_number (fun i => { i with size := new_len }) } }

/-- Flag constants from `src/system.rs`. -/
def O_CREAT : Nat := 64

/-- Flag constant `O_TRUNC` from `src/system.rs`. -/
def O_TRUNC : Nat := 512

/-- Flag constant `O_APPEND` from `src/system.rs`. -/
def O_APPEND : Nat := 1024

/-- Write `src` into `l` starting at `pos`, replacing the bytes there.
This models `ptr::copy_nonoverlapping` into a buffer known to be long
enough (`l.length ≥ pos + src.length`). -/
def listStore (l : List Byte) (pos : Nat) (src : List Byte) : List Byte :=
  l.take pos ++ src ++ l.drop (pos + src.length)

/-- Translated from `wasm_vfs_open` in `src/system.rs`.  Note that the
source looks the raw `path` argument up in the path index directly; it
does not call `get_absolute_path`.  The `O_TRUNC` branch clears the
payload through `get_mut` without touching the inode's `size`. -/
def wasm_vfs_open (p : Proc) (path : String) (flags : Nat) (mode : Nat) : Int × Proc :=
  let should_create := Nat.land flags O_CREAT = O_CREAT
  let should_truncate := Nat.land flags O_TRUNC = O_TRUNC
  let append_mode := Nat.land flags O_APPEND = O_APPEND
  let step1 : Option (Nat × FileSystem) :=
    match p.fs.lookup_inode_by_path path with
    | some n => some (n, p.fs)
    | none => if should_create then some (p.fs.create_file path mode) else none
  match step1 with
  | none => (-1, p)
  | some (inode_number, fs1) =>
    let files2 :=
      if should_truncate then alUpdate fs1.files inode_number (fun _ => [])
      else if alContains fs1.files inode_number then fs1.files
      else alInsert fs1.files inode_number []
    let p1 : Proc := { p with fs := { fs1 with files := files2 } }
    match p1.allocate_fd with
    | none => (-1, p1)
    | some fd =>
      let p2 : Proc := { p1 with fdTable := p1.fdTable.set fd (some inode_number) }
      let initial_pos :=
        if append_mode then ((alGet p2.fs.files inode_number).map List.length).getD 0 else 0
      let handle : OpenFileHandle :=
        { inode_number := inode_number, position := initial_pos, append_mode := append_mode }
      ((fd : Int), { p2 with openFiles := hmInsert p2.openFiles (fd : Int) handle })

/-- Translated from `wasm_vfs_close` in `src/system.rs`. -/
def wasm_vfs_close (p : Proc) (fd : Int) : Int × Proc :=
  if usizeOfInt fd < p.fdTable.length ∧ ((p.fdTable[usizeOfInt fd]?).bind id).isSome then
    (0, { p with
          fdTable := p.fdTable.set (usizeOfInt fd) none
          openFiles := hmRemove p.openFiles fd })
  else (-1, p)

/-- Translated from `wasm_vfs_creat` in `src/system.rs`:
`open(path, O_WRONLY | O_CREAT | O_TRUNC, mode)`. -/
def wasm_vfs_creat (p : Proc) (path : String) (mode : Nat) : Int × Proc :=
  wasm_vfs_open p path (Nat.lor (Nat.lor 1 O_CREAT) O_TRUNC) mode

/-- Translated from `wasm_vfs_read` in `src/system.rs`.  The bytes
copied into the caller's buffer are returned alongside the count and
the new state. -/
def wasm_vfs_read (p : Proc) (fd : Int) (count : Nat) : Int × List Byte × Proc :=
  match hmGet p.openFiles fd with
  | none => (-1, [], p)
  | some h =>
    match alGet p.fs.files h.inode_number with
    | none => (-1, [], p)
    | some data =>
      if data.length ≤ h.position then (0, [], p)
      else
        let to_read := min count (data.length - h.position)
        let bytes := (data.drop h.position).take to_read
        let p2 : Proc :=
          { p with openFiles :=
              hmUpdate p.openFiles fd (fun h2 => { h2 with position := h2.position + to_read }) }
        ((to_read : Int), bytes, p2)

/-- Feed bytes into the stdout line accumulator, emitting a line to the
host sink whenever a newline byte (10) is appended; translated from the
`fd == 1` branch of `wasm_vfs_write`. -/
def stdoutFeed : List Byte → List Byte → List (List Byte) → List Byte × List (List Byte)
  | [], accum, lines => (accum, lines)
  | b :: rest, accum, lines =>
      if b = 10 then stdoutFeed rest [] (lines ++ [accum ++ [b]])
      else stdoutFeed rest (accum ++ [b]) lines

/-- Translated from `wasm_vfs_write` in `src/system.rs`: FD 1 goes to
the stdout line accumulator; otherwise the payload is grown to at least
`position + count` (zero-filled), the bytes are stored, the position
advances and the inode size is set to the new payload length. -/
def wasm_vfs_write (p : Proc) (fd : Int) (buf : List Byte) (count : Nat) : Int × Proc :=
  if fd = 1 then
    let fed := stdoutFeed (buf.take count) p.stdoutAccum p.stdoutLines
    ((count : Int), { p with stdoutAccum := fed.1, stdoutLines := fed.2 })
  else
    match hmGet p.openFiles fd with
    | none => (-1, p)
    | some h =>
      match alGet p.fs.files h.inode_number with
      | none => (-1, p)
      | some data =>
        let actual_pos := if h.append_mode then data.length else h.position
        let grown :=
          if actual_pos + count > data.length then
            data ++ List.replicate (actual_pos + count - data.length) 0
          else data
        let data2 := listStore grown actual_pos (buf.take count)
        let new_position := actual_pos + count
        let files2 := alUpdate p.fs.files h.inode_number (fun _ => data2)
        let openFiles2 :=
          hmUpdate p.openFiles fd (fun h2 => { h2 with position := new_position })
        let final_size := ((alGet files2 h.inode_number).map List.length).getD 0
        let inodes2 := updInode p.fs.inodes h.inode_number (fun i => { i with size := final_size })
        ((count : Int),
         { p with
           fs := { p.fs with files := files2, inodes := inodes2 }
           openFiles := openFiles2 })

/-- Translated from `wasm_vfs_lseek` in `src/system.rs`: whence 0/1/2
select absolute, current-relative and end-relative offsets; a negative
result fails, otherwise the position is updated and returned. -/
def wasm_vfs_lseek (p : Proc) (fd : Int) (offset : Int) (whence : Int) : Int × Proc :=
  match hmGet p.openFiles fd with
  | none => (-1, p)
  | some h =>
    match alGet p.fs.files h.inode_number with
    | none => (-1, p)
    | some data =>
      let size : Int := i64OfNat data.length
      let old_pos : Int := i64OfNat h.position
      let new_pos : Option Int :=
        if whence = 0 then some offset
        else if whence = 1 then some (old_pos + offset)
        else if whence = 2 then some (size + offset)
        else none
      match new_pos with
      | none => (-1, p)
      | some np =>
        if np < 0 then (-1, p)
        else
          (np, { p with openFiles :=
                  hmUpdate p.openFiles fd (fun h2 => { h2 with position := np.toNat }) })

/-- Translated from `wasm_vfs_dup2` in `src/system.rs`: both FDs must
be in range, `oldfd` must be bound in the FD table; `oldfd == newfd`
returns `newfd` untouched; otherwise an open `newfd` is closed first
and the handle is copied. -/
def wasm_vfs_dup2 (p : Proc) (oldfd newfd : Int) : Int × Proc :=
  if usizeOfInt oldfd < p.fdTable.length ∧ usizeOfInt newfd < p.fdTable.length then
    match (p.fdTable[usizeOfInt oldfd]?).bind id with
    | none => (-1, p)
    | some inode_number =>
      if oldfd = newfd then (newfd, p)
      else
        let p1 : Proc :=
          if ((p.fdTable[usizeOfInt newfd]?).bind id).isSome then
            { p with
              fdTable := p.fdTable.set (usizeOfInt newfd) none
              openFiles := hmRemove p.openFiles newfd }
          else p
        let p2 : Proc := { p1 with fdTable := p1.fdTable.set (usizeOfInt newfd) (some inode_number) }
        match hmGet p2.openFiles oldfd with
        | some oldh =>
            let copied : OpenFileHandle :=
              { inode_number := oldh.inode_number
                position := oldh.position
                append_mode := oldh.append_mode }
            (newfd, { p2 with openFiles := hmInsert p2.openFiles newfd copied })
        | none => (newfd, p2)
  else (-1, p)

/-- Translated from `wasm_vfs_pread64` in `src/system.rs`: the offset
is cast to `usize` and used as the read position; the handle's position
is never touched. -/
def wasm_vfs_pread64 (p : Proc) (fd : Int) (count : Nat) (offset : Int) : Int × List Byte × Proc :=
  match hmGet p.openFiles fd with
  | none => (-1, [], p)
  | some h =>
    match alGet p.fs.files h.inode_number with
    | none => (-1, [], p)
    | some data =>
      let position := usizeOfInt offset
      if data.length ≤ position then (0, [], p)
      else
        let to_read := min count (data.length - position)
        ((to_read : Int), (data.drop position).take to_read, p)

/-- Translated from `wasm_vfs_pwrite64` in `src/system.rs`: the offset
is cast to `usize` and used as the write position; the payload grows to
at least `position + count`, the inode size becomes the new payload
length, and the handle's position is never touched. -/
def wasm_vfs_pwrite64 (p : Proc) (fd : Int) (buf : List Byte) (count : Nat) (offset : Int) : Int × Proc :=
  match hmGet p.openFiles fd with
  | none => (-1, p)
  | some h =>
    match alGet p.fs.files h.inode_number with
    | none => (-1, p)
    | some data =>
      let position := usizeOfInt offset
      let grown :=
        if position + count > data.length then
          data ++ List.replicate (position + count - data.length) 0
        else data
      let data2 := listStore grown position (buf.take count)
      let files2 := alUpdate p.fs.files h.inode_number (fun _ => data2)
      let final_len := ((alGet files2 h.inode_number).map List.length).getD 0
      let inodes2 := updInode p.fs.inodes h.inode_number (fun i => { i with size := final_len })
      ((count : Int), { p with fs := { p.fs with files := files2, inodes := inodes2 } })

/-- Translated from `wasm_vfs_sendfile` in `src/system.rs`.  The
optional `offset` models the `*mut i64` cell: `none` is a null pointer;
the (possibly updated) cell value is returned.  The source contains two
consecutive writes of the output handle's position (the second one,
using the length recomputed after the copy, wins in the append case);
both are retained here.  Note the output inode's `size` field is never
updated. -/
def wasm_vfs_sendfile (p : Proc) (out_fd in_fd : Int) (offset : Option Int) (count : Nat) :
    Int × Option Int × Proc :=
  match hmGet p.openFiles in_fd with
  | none => (-1, offset, p)
  | some hIn =>
    match hmGet p.openFiles out_fd with
    | none => (-1, offset, p)
    | some hOut =>
      match alGet p.fs.files hIn.inode_number with
      | none => (-1, offset, p)
      | some in_data =>
        let read_pos := match offset with
          | some o => usizeOfInt o
          | none => hIn.position
        if in_data.length ≤ read_pos then (0, offset, p)
        else
          let to_copy := min count (in_data.length - read_pos)
          match alGet p.fs.files hOut.inode_number with
          | none => (-1, offset, p)
          | some out_data =>
            let real_out_pos := if hOut.append_mode then out_data.length else hOut.position
            let grown :=
              if real_out_pos + to_copy > out_data.length then
                out_data ++ List.replicate (real_out_pos + to_copy - out_data.length) 0
              else out_data
            let out_data2 := listStore grown real_out_pos ((in_data.drop read_pos).take to_copy)
            let files2 := alUpdate p.fs.files hOut.inode_number (fun _ => out_data2)
            let offset2 := offset.map (fun o => o + (to_copy : Int))
            let of1 :=
              if offset.isNone then
                hmUpdate p.openFiles in_fd (fun h2 => { h2 with position := hIn.position + to_copy })
              else p.openFiles
            let of2 :=
              hmUpdate of1 out_fd (fun h2 =>
                if hOut.append_mode then h2
                else { h2 with position := hOut.position + to_copy })
            let new_len := ((alGet files2 hOut.inode_number).map List.length).getD 0
            let of3 :=
              hmUpdate of2 out_fd (fun h2 =>
                if hOut.append_mode then { h2 with position := new_len }
                else { h2 with position := hOut.position + to_copy })
            ((to_copy : Int), offset2,
             { p with fs := { p.fs with files := files2 }, openFiles := of3 })

/-- Translated from `wasm_vfs_splice` in `src/system.rs`.  The two
optional offsets model the `*mut i64` cells; the updated cell values
are returned.  `flags` is ignored.  Note that when `off_in` is null the
input handle's position is advanced before `old_out_pos` is re-read
from the (possibly identical) output handle, and that the output
inode's `size` field is never updated. -/
def wasm_vfs_splice (p : Proc) (fd_in : Int) (off_in : Option Int) (fd_out : Int)
    (off_out : Option Int) (len : Nat) (_flags : Nat) : Int × Option Int × Option Int × Proc :=
  match hmGet p.openFiles fd_in with
  | none => (-1, off_in, off_out, p)
  | some hIn =>
    match hmGet p.openFiles fd_out with
    | none => (-1, off_in, off_out, p)
    | some hOut =>
      match alGet p.fs.files hIn.inode_number with
      | none => (-1, off_in, off_out, p)
      | some in_data =>
        let read_pos := match off_in with
          | some o => usizeOfInt o
          | none => hIn.position
        if in_data.length ≤ read_pos then (0, off_in, off_out, p)
        else
          let to_copy := min len (in_data.length - read_pos)
          match alGet p.fs.files hOut.inode_number with
          | none => (-1, off_in, off_out, p)
          | some out_data =>
            let write_pos := match off_out with
              | some o => usizeOfInt o
              | none => if hOut.append_mode then out_data.length else hOut.position
            let grown :=
              if write_pos + to_copy > out_data.length then
                out_data ++ List.replicate (write_pos + to_copy - out_data.length) 0
              else out_data
            let out_data2 := listStore grown write_pos ((in_data.drop read_pos).take to_copy)
            let files2 := alUpdate p.fs.files hOut.inode_number (fun _ => out_data2)
            let off_in2 := off_in.map (fun o => o + (to_copy : Int))
            let off_out2 := off_out.map (fun o => o + (to_copy : Int))
            let of1 :=
              if off_in.isNone then
                hmUpdate p.openFiles fd_in (fun h2 => { h2 with position := hIn.position + to_copy })
              else p.openFiles
            match hmGet of1 fd_out with
            | none =>
                (-1, off_in2, off_out2,
                 { p with fs := { p.fs with files := files2 }, openFiles := of1 })
            | some outHandleNow =>
              let out_app_local := outHandleNow.append_mode
              let old_out_pos := outHandleNow.position
              let length_copy :=
                if out_app_local && off_out.isNone then
                  ((alGet files2 hOut.inode_number).map List.length).getD 0
                else old_out_pos
              let of2 :=
                hmUpdate of1 fd_out (fun h2 =>
                  if out_app_local && off_out.isNone then { h2 with position := length_copy }
                  else if off_out.isNone then { h2 with position := old_out_pos + to_copy }
                  else h2)
              ((to_copy : Int), off_in2, off_out2,
               { p with fs := { p.fs with files := files2 }, openFiles := of2 })

/-- Stat record, with the fields filled by `fill_stat_from_inode` in
`src/system.rs`. -/
structure Stat : Type where
  st_dev : Nat
  st_ino : Nat
  st_mode : Nat
  st_nlink : Nat
  st_uid : Nat
  st_gid : Nat
  st_rdev : Nat
  st_size : Int
  st_blksize : Int
  st_blocks : Int
  st_atime : Int
  st_mtime : Int
  st_ctime : Int
deriving DecidableEq, Repr

/-- Translated from `fill_stat_from_inode` in `src/system.rs`: the
file-type bits are or-ed with the nine permission bits; `st_size` is
the inode size, `st_blksize` 4096, `st_blocks` the 512-byte block
count. -/
def fillStatFromInode (inode : Inode) : Stat :=
  let mode_type : Nat :=
    match inode.kind with
    | InodeKind.file => 0o100000
    | InodeKind.directory => 0o040000
    | InodeKind.symbolicLink _ => 0o120000
  let mode_perms : Nat := Nat.land inode.permissions 0o777
  { st_dev := 0
    st_ino := inode.number
    st_mode := Nat.lor mode_type mode_perms
    st_nlink := 1
    st_uid := inode.user_id
    st_gid := inode.group_id
    st_rdev := 0
    st_size := i64OfNat inode.size
    st_blksize := 4096
    st_blocks := (i64OfNat inode.size + 511) / 512
    st_atime := i64OfNat inode.atime
    st_mtime := i64OfNat inode.mtime
    st_ctime := i64OfNat inode.ctime }

/-- Translated from `wasm_vfs_stat` in `src/system.rs`: the path is
resolved to an absolute form, looked up in the path index, and the stat
record is filled from the inode.  The source unwraps the inode lookup;
a state violating invariant I1 would panic there, modelled as failure. -/
def wasm_vfs_stat (p : Proc) (path : String) : Int × Option Stat :=
  let abs_path := p.get_absolute_path path
  match p.fs.lookup_inode_by_path abs_path with
  | none => (-1, none)
  | some n =>
    match p.fs.inodes[n]? with
    | some inode => (0, some (fillStatFromInode inode))
    | none => (-1, none)

/-- Translated from `wasm_vfs_chdir` in `src/system.rs`: the resolved
path must name a directory inode; the current directory becomes the
resolved absolute path. -/
def wasm_vfs_chdir (p : Proc) (path : String) : Int × Proc :=
  let abs_path := p.get_absolute_path path
  match p.fs.lookup_inode_by_path abs_path with
  | none => (-1, p)
  | some n =>
    match p.fs.inodes[n]? with
    | none => (-1, p)
    | some inode =>
      match inode.kind with
      | InodeKind.directory =>
          (0, { p with fs := { p.fs with current_directory := abs_path } })
      | _ => (-1, p)

/-- Translated from `Proc::insert_directory_entry` in `src/system.rs`:
build an inode with permissions `0o777 & !umask`, pad the inode table
up to the index, store the inode, register the path, and give File and
Directory inodes an empty payload. -/
def Proc.insert_directory_entry (p : Proc) (path : String) (inode_number : Nat)
    (kind : InodeKind) : Proc :=
  let inode : Inode :=
    { number := inode_number
      size := 0
      permissions := Nat.land (Nat.land 0o777 (notU32 p.umaskValue)) 0o777
      user_id := 0, group_id := 0, ctime := 0, mtime := 0, atime := 0
      kind := kind }
  let inodes2 := (padInodes p.fs.inodes inode_number).set inode_number inode
  let path_map2 := alInsert p.fs.path_map path inode_number
  let files2 :=
    match kind with
    | InodeKind.directory => alInsert p.fs.files inode_number []
    | InodeKind.file => alInsert p.fs.files inode_number []
    | _ => p.fs.files
  { p with fs := { p.fs with inodes := inodes2, path_map := path_map2, files := files2 } }

/-- Translated from `wasm_vfs_mkdir` in `src/system.rs`: fails when the
resolved path already exists; otherwise allocates the next inode
number, inserts a directory entry and overwrites its permissions with
`(mode as u16) & !(umask as u16)`. -/
def wasm_vfs_mkdir (p : Proc) (path : String) (mode : Nat) : Int × Proc :=
  let abs_path := p.get_absolute_path path
  if (p.fs.lookup_inode_by_path abs_path).isSome then (-1, p)
  else
    let inode_number := p.fs.next_inode_number
    let p1 : Proc := { p with fs := { p.fs with next_inode_number := inode_number + 1 } }
    let adjusted_mode := Nat.land (mode % 2 ^ 16) (notU16 p.umaskValue)
    let p2 := p1.insert_directory_entry abs_path inode_number InodeKind.directory
    let p3 : Proc :=
      { p2 with fs := { p2.fs with
          inodes := updInode p2.fs.inodes inode_number
            (fun i => { i with permissions := Nat.land adjusted_mode 0o777 }) } }
    (0, p3)

/-- Translated from `wasm_vfs_rename` in `src/system.rs`: resolve both
paths, fail when the old path is unbound, otherwise remove the old
entry and insert the new one pointing at the same inode number. -/
def wasm_vfs_rename (p : Proc) (oldpath newpath : String) : Int × Proc :=
  let old_abs := p.get_absolute_path oldpath
  let new_abs := p.get_absolute_path newpath
  match p.fs.lookup_inode_by_path old_abs with
  | none => (-1, p)
  | some inode_num =>
    let pm := alInsert (alRemove p.fs.path_map old_abs) new_abs inode_num
    (0, { p with fs := { p.fs with path_map := pm } })

/-- Translated from `wasm_vfs_truncate` in `src/system.rs`: resolves
the path, rejects a negative length, then sets the payload length and
the inode size through `set_file_size`. -/
def wasm_vfs_truncate (p : Proc) (path : String) (length : Int) : Int × Proc :=
  let abs_path := p.get_absolute_path path
  match p.fs.lookup_inode_by_path abs_path with
  | none => (-1, p)
  | some n =>
    if length < 0 then (-1, p)
    else (0, p.set_file_size n (usizeOfInt length))

/-- Translated from `wasm_vfs_ftruncate` in `src/system.rs`: a negative
length fails before the FD is even inspected. -/
def wasm_vfs_ftruncate (p : Proc) (fd : Int) (length : Int) : Int × Proc :=
  if length < 0 then (-1, p)
  else
    match (p.fdTable[usizeOfInt fd]?).bind id with
    | none => (-1, p)
    | some n => (0, p.set_file_size n (usizeOfInt length))

/-- Translated from `wasm_vfs_fallocate` in `src/system.rs`: negative
`offset` or `len` fails; otherwise the payload is grown (zero-filled)
to at least `offset + len` and the inode size is set to the new payload
length.  The source unwraps the payload lookup; a missing payload would
panic there, modelled as failure. -/
def wasm_vfs_fallocate (p : Proc) (fd : Int) (_mode : Int) (offset len : Int) : Int × Proc :=
  if offset < 0 ∨ len < 0 then (-1, p)
  else
    match (p.fdTable[usizeOfInt fd]?).bind id with
    | none => (-1, p)
    | some n =>
      match alGet p.fs.files n with
      | none => (-1, p)
      | some data =>
        let endPos := usizeOfInt (offset + len)
        let data2 :=
          if data.length < endPos then data ++ List.replicate (endPos - data.length) 0
          else data
        let files2 := alUpdate p.fs.files n (fun _ => data2)
        (0, { p with fs := { p.fs with
                files := files2
                inodes := updInode p.fs.inodes n (fun i => { i with size := data2.length }) } })

/-!
Concrete process states used to instantiate the general theorems.
-/

/-- The state after `creat("/a", 0o644)` on the fresh process: fd 3 is
open on inode 1 with an empty payload. -/
def procA : Proc := (wasm_vfs_creat Proc.start "/a" 0o644).2

/-- The state after additionally writing the five bytes of "hello"
through fd 3. -/
def procB : Proc := (wasm_vfs_write procA 3 [104, 101, 108, 108, 111] 5).2

/-- A state whose 256-slot open-file map is completely full (keys 100
to 355), with `"/a"` bound to inode 1 and the whole FD table free. -/
def procFull : Proc :=
  { Proc.start with
    fs := { FileSystem.initial with
      inodes := [{ Inode.zero with kind := InodeKind.directory },
                 { Inode.zero with number := 1 }]
      path_map := [("/", 0), ("/a", 1)]
      files := [(0, []), (1, [])] }
    openFiles := (List.range 256).map (fun i =>
      some (((i : Int) + 100),
        { inode_number := 1, position := 0, append_mode := false })) }

/-- The state of the spec's splice scenario: `"/src"` holds the ten
digits with fd 3 rewound to 0, and `"/dst"` is freshly created on
fd 4. -/
def procSrcDst : Proc :=
  (wasm_vfs_creat (wasm_vfs_lseek (wasm_vfs_write (wasm_vfs_creat Proc.start "/src" 0o644).2
    3 [48, 49, 50, 51, 52, 53, 54, 55, 56, 57] 10).2 3 0 0).2 "/dst" 0o644).2

/-!
Lemmas about the slot map, the association lists and the numeric casts.
-/

theorem usizeOfInt_toNat {i : Int} (h0 : 0 ≤ i) (h1 : i < 2 ^ 64) :
    usizeOfInt i = i.toNat := by
  unfold usizeOfInt
  rw [Int.emod_eq_of_lt h0 h1]

theorem usizeOfInt_neg_ge {i : Int} (hneg : i < 0) (hrange : -(2 ^ 63) ≤ i) :
    2 ^ 63 ≤ usizeOfInt i := by
  unfold usizeOfInt
  omega

theorem i64OfNat_small {n : Nat} (h : n < 2 ^ 63) : i64OfNat n = (n : Int) := by
  unfold i64OfNat
  have h64 : n % 2 ^ 64 = n := Nat.mod_eq_of_lt (lt_trans h (by norm_num))
  rw [h64, if_pos h]

theorem hmGet_hmUpdate_self {K V : Type} [DecidableEq K]
    (m : List (Option (K × V))) (k : K) (f : V → V) :
    hmGet (hmUpdate m k f) k = (hmGet m k).map f := by
  induction m with
  | nil => rfl
  | cons s rest ih =>
    match s with
    | none => simpa [hmUpdate, hmGet] using ih
    | some (k', v) =>
      by_cases hk : k' = k
      · simp [hmUpdate, hmGet, hk]
      · simpa [hmUpdate, hmGet, hk] using ih

theorem hmGet_hmUpdate_ne {K V : Type} [DecidableEq K]
    (m : List (Option (K × V))) (k' k : K) (f : V → V) (hne : k' ≠ k) :
    hmGet (hmUpdate m k' f) k = hmGet m k := by
  induction m with
  | nil => rfl
  | cons s rest ih =>
    match s with
    | none => simpa [hmUpdate, hmGet] using ih
    | some (a, v) =>
      by_cases ha : a = k'
      · subst ha
        simp [hmUpdate, hmGet, hne]
      · by_cases hb : a = k
        · simp [hmUpdate, hmGet, ha, hb, Ne.symm hne]
        · simpa [hmUpdate, hmGet, ha, hb] using ih

theorem hmUpdate_hmUpdate {K V : Type} [DecidableEq K]
    (m : List (Option (K × V))) (k : K) (f g : V → V) :
    hmUpdate (hmUpdate m k f) k g = hmUpdate m k (fun v => g (f v)) := by
  induction m with
  | nil => rfl
  | cons s rest ih =>
    match s with
    | none => simpa [hmUpdate] using ih
    | some (a, v) =>
      by_cases ha : a = k
      · simp [hmUpdate, ha]
      · simpa [hmUpdate, ha] using ih

theorem hmInsert_full_absent {K V : Type} [DecidableEq K]
    (m : List (Option (K × V))) (k : K) (v : V)
    (hfull : ∀ s ∈ m, s.isSome) (habsent : hmGet m k = none) :
    hmInsert m k v = m := by
  induction m with
  | nil => rfl
  | cons s rest ih =>
    match s with
    | none =>
        exact absurd (hfull none (by simp)) (by simp)
    | some (a, w) =>
      by_cases ha : a = k
      · simp [hmGet, ha] at habsent
      · have hrest : ∀ s ∈ rest, s.isSome := fun s hs => hfull s (by simp [hs])
        have habs : hmGet rest k = none := by simpa [hmGet, ha] using habsent
        simp [hmInsert, ha, ih hrest habs]

theorem alGet_alUpdate_self {K V : Type} [DecidableEq K]
    (m : List (K × V)) (k : K) (f : V → V) :
    alGet (alUpdate m k f) k = (alGet m k).map f := by
  induction m with
  | nil => rfl
  | cons e rest ih =>
    match e with
    | (a, v) =>
      by_cases ha : a = k
      · simp [alUpdate, alGet, ha]
      · simpa [alUpdate, alGet, ha] using ih

theorem alGet_alUpdate_ne {K V : Type} [DecidableEq K]
    (m : List (K × V)) (k' k : K) (f : V → V) (hne : k' ≠ k) :
    alGet (alUpdate m k' f) k = alGet m k := by
  induction m with
  | nil => rfl
  | cons e rest ih =>
    match e with
    | (a, v) =>
      by_cases ha : a = k'
      · subst ha
        simp [alUpdate, alGet, hne]
      · by_cases hb : a = k
        · simp [alUpdate, alGet, ha, hb, Ne.symm hne]
        · simpa [alUpdate, alGet, ha, hb] using ih

theorem alGet_alInsert_self {K V : Type} [DecidableEq K]
    (m : List (K × V)) (k : K) (v : V) :
    alGet (alInsert m k v) k = some v := by
  induction m with
  | nil => simp [alInsert, alGet]
  | cons e rest ih =>
    match e with
    | (a, w) =>
      by_cases ha : a = k
      · simp [alInsert, alGet, ha]
      · simpa [alInsert, alGet, ha] using ih

theorem alGet_alInsert_ne {K V : Type} [DecidableEq K]
    (m : List (K × V)) (k' k : K) (v : V) (hne : k' ≠ k) :
    alGet (alInsert m k' v) k = alGet m k := by
  induction m with
  | nil => simp [alInsert, alGet, hne]
  | cons e rest ih =>
    match e with
    | (a, w) =>
      by_cases ha : a = k'
      · subst ha
        simp [alInsert, alGet, hne]
      · by_cases hb : a = k
        · simp [alInsert, alGet, ha, hb, Ne.symm hne]
        · simpa [alInsert, alGet, ha, hb] using ih

theorem alGet_alRemove_ne {K V : Type} [DecidableEq K]
    (m : List (K × V)) (k' k : K) (hne : k' ≠ k) :
    alGet (alRemove m k') k = alGet m k := by
  induction m with
  | nil => rfl
  | cons e rest ih =>
    match e with
    | (a, v) =>
      by_cases ha : a = k'
      · subst ha
        simp [alRemove, alGet, hne]
      · by_cases hb : a = k
        · simp [alRemove, alGet, ha, hb, Ne.symm hne]
        · simpa [alRemove, alGet, ha, hb] using ih

theorem alGet_eq_none_of_not_mem {K V : Type} [DecidableEq K] (m : List (K × V)) (k : K)
    (h : k ∉ m.map Prod.fst) : alGet m k = none := by
  induction m with
  | nil => rfl
  | cons e rest ih =>
    match e with
    | (a, v) =>
      have ha : a ≠ k := by
        intro h2
        exact h (by simp [h2])
      have hrest : k ∉ rest.map Prod.fst := fun hm => h (by simp [hm])
      simp [alGet, ha, ih hrest]

theorem alGet_alRemove_self {K V : Type} [DecidableEq K]
    (m : List (K × V)) (k : K) (hnodup : (m.map Prod.fst).Nodup) :
    alGet (alRemove m k) k = none := by
  induction m with
  | nil => rfl
  | cons e rest ih =>
    match e with
    | (a, v) =>
      have h2 : a ∉ rest.map Prod.fst ∧ (rest.map Prod.fst).Nodup := by
        simpa [List.nodup_cons] using hnodup
      by_cases ha : a = k
      · subst ha
        simp only [alRemove, if_pos rfl]
        exact alGet_eq_none_of_not_mem rest a h2.1
      · simpa [alRemove, alGet, ha] using ih h2.2

theorem allocateFdAux_ge (l : List (Option Nat)) (i j : Nat)
    (h : allocateFdAux l i = some j) : 3 ≤ j := by
  induction l generalizing i with
  | nil => simp [allocateFdAux] at h
  | cons s rest ih =>
    match s with
    | none =>
      by_cases hi : 3 ≤ i
      · simp [allocateFdAux, hi] at h
        omega
      · simp [allocateFdAux, hi] at h
        exact ih (i + 1) h
    | some a =>
      simp only [allocateFdAux] at h
      exact ih (i + 1) h

theorem length_listStore (l : List Byte) (pos : Nat) (src : List Byte)
    (h : pos + src.length ≤ l.length) :
    (listStore l pos src).length = l.length := by
  unfold listStore
  simp only [List.length_append, List.length_take, List.length_drop]
  omega

theorem drop_listStore (l : List Byte) (pos : Nat) (src : List Byte)
    (h : pos ≤ l.length) :
    (listStore l pos src).drop pos = src ++ l.drop (pos + src.length) := by
  unfold listStore
  have hlen : (l.take pos).length = pos := by simp [Nat.min_eq_left h]
  rw [List.drop_append_of_le_length (by rw [List.length_append, hlen]; omega),
      List.drop_append_of_le_length (le_of_eq hlen.symm),
      List.drop_eq_nil_of_le (le_of_eq hlen)]
  simp

/-!
Claims C1, C2 and C3 and the counterexample runs for C5, C7 and C8 are
settled on concrete executions of the model.
-/

/-- C1 (code bug evidence): after `creat("/a"); write(5 bytes);
open("/a", O_TRUNC)` the File inode 1 has an empty payload but its
`size` field still reads 5, so `inode.size == len(payload)` does not
hold after the completed `open` syscall. -/
theorem c1_otrunc_size_payload_mismatch :
    (((wasm_vfs_open (wasm_vfs_write (wasm_vfs_creat Proc.start "/a" 0o644).2
        3 [104, 101, 108, 108, 111] 5).2 "/a" O_TRUNC 0).2.fs.inodes[1]?).map Inode.kind
        = some InodeKind.file)
    ∧ (alGet (wasm_vfs_open (wasm_vfs_write (wasm_vfs_creat Proc.start "/a" 0o644).2
        3 [104, 101, 108, 108, 111] 5).2 "/a" O_TRUNC 0).2.fs.files 1 = some [])
    ∧ (((wasm_vfs_open (wasm_vfs_write (wasm_vfs_creat Proc.start "/a" 0o644).2
        3 [104, 101, 108, 108, 111] 5).2 "/a" O_TRUNC 0).2.fs.inodes[1]?).map Inode.size
        = some 5) := by
  decide

/-- C2 (code bug evidence): `open` with `O_TRUNC` on the existing file
`"/a"` (payload "hello", size 5) clears the payload but leaves the
inode's `size` at 5 instead of setting it to 0; `stat` then still
reports size 5. -/
theorem c2_otrunc_does_not_zero_size :
    (alGet (wasm_vfs_open (wasm_vfs_write (wasm_vfs_creat Proc.start "/a" 0o644).2
        3 [104, 101, 108, 108, 111] 5).2 "/a" O_TRUNC 0).2.fs.files 1 = some [])
    ∧ (((wasm_vfs_stat (wasm_vfs_open (wasm_vfs_write
        (wasm_vfs_creat Proc.start "/a" 0o644).2
        3 [104, 101, 108, 108, 111] 5).2 "/a" O_TRUNC 0).2 "/a").2).map Stat.st_size
        = some 5) := by
  decide

/-- C3 (code bug evidence): after `mkdir("/d"); chdir("/d")`, the call
`open("f", O_CREAT, 0o644)` succeeds but registers the literal relative
path `"f"` in the path index instead of `"/d/f"`, and `stat("f")`
(which does resolve through the current working directory, to `"/d/f"`)
fails: `open` does not resolve relative paths against the cwd. -/
theorem c3_open_ignores_cwd :
    ((wasm_vfs_open (wasm_vfs_chdir (wasm_vfs_mkdir Proc.start "/d" 0o755).2 "/d").2
        "f" O_CREAT 0o644).1 = 3)
    ∧ (alGet (wasm_vfs_open (wasm_vfs_chdir (wasm_vfs_mkdir Proc.start "/d" 0o755).2 "/d").2
        "f" O_CREAT 0o644).2.fs.path_map "f" = some 2)
    ∧ (alGet (wasm_vfs_open (wasm_vfs_chdir (wasm_vfs_mkdir Proc.start "/d" 0o755).2 "/d").2
        "f" O_CREAT 0o644).2.fs.path_map "/d/f" = none)
    ∧ ((wasm_vfs_stat (wasm_vfs_open (wasm_vfs_chdir
        (wasm_vfs_mkdir Proc.start "/d" 0o755).2 "/d").2 "f" O_CREAT 0o644).2 "f").1 = -1) := by
  decide

/-- C5 (counterexample): on the state holding `"/s"` with payload
"0123" and fd 3 positioned at 0, `sendfile(3, 3, NULL, 2)` and
`splice(3, NULL, 3, NULL, 2, 0)` both return 2 but leave fd 3 at
position 2 and 4 respectively, so the two calls do not produce the same
final state for every pair of descriptors. -/
theorem c5_same_fd_counterexample :
    ((wasm_vfs_sendfile (wasm_vfs_lseek (wasm_vfs_write
        (wasm_vfs_creat Proc.start "/s" 0o644).2 3 [48, 49, 50, 51] 4).2 3 0 0).2
        3 3 none 2).1 = 2)
    ∧ ((wasm_vfs_splice (wasm_vfs_lseek (wasm_vfs_write
        (wasm_vfs_creat Proc.start "/s" 0o644).2 3 [48, 49, 50, 51] 4).2 3 0 0).2
        3 none 3 none 2 0).1 = 2)
    ∧ ((hmGet (wasm_vfs_sendfile (wasm_vfs_lseek (wasm_vfs_write
        (wasm_vfs_creat Proc.start "/s" 0o644).2 3 [48, 49, 50, 51] 4).2 3 0 0).2
        3 3 none 2).2.2.openFiles 3).map OpenFileHandle.position = some 2)
    ∧ ((hmGet (wasm_vfs_splice (wasm_vfs_lseek (wasm_vfs_write
        (wasm_vfs_creat Proc.start "/s" 0o644).2 3 [48, 49, 50, 51] 4).2 3 0 0).2
        3 none 3 none 2 0).2.2.2.openFiles 3).map OpenFileHandle.position = some 4) := by
  decide

/-- C7 (counterexample): with `"/a"` bound in the path index,
`rename("/a", "/a")` returns 0 and `stat("/a")` still succeeds
afterwards, so "stat(oldpath) fails afterwards" does not hold for every
`newpath`. -/
theorem c7_rename_same_path_counterexample :
    ((wasm_vfs_rename (wasm_vfs_creat Proc.start "/a" 0o644).2 "/a" "/a").1 = 0)
    ∧ ((wasm_vfs_stat (wasm_vfs_rename
        (wasm_vfs_creat Proc.start "/a" 0o644).2 "/a" "/a").2 "/a").1 = 0) := by
  decide

/-- C8 (counterexample): in the fresh process state, descriptor 5 is
not open, and `dup2(5, 5)` returns −1 rather than 5, so "returns fd"
does not hold for every descriptor value in 0..1023. -/
theorem c8_dup2_unopened_counterexample :
    (wasm_vfs_dup2 Proc.start 5 5).1 = -1 ∧ ((-1 : Int) ≠ 5) := by
  decide

theorem updInode_getElem_self (inodes : List Inode) (n : Nat) (f : Inode → Inode) :
    (updInode inodes n f)[n]? = (inodes[n]?).map f := by
  unfold updInode
  match h : inodes[n]? with
  | none =>
    rw [h]
    simp [h]
  | some i =>
    have hlt : n < inodes.length := by
      rcases List.getElem?_eq_some.mp h with ⟨hlt, _⟩
      exact hlt
    simp [h, List.getElem?_set_self hlt]

/-- C8 (amended): for every in-range descriptor value, `dup2(fd, fd)`
leaves the process state unchanged; it returns `fd` when `fd` is bound
in the FD table and −1 when it is not. -/
theorem c8_dup2_self_noop (p : Proc) (fd : Int) (h0 : 0 ≤ fd) (h1 : fd < 1024)
    (hlen : p.fdTable.length = 1024) :
    (((p.fdTable[usizeOfInt fd]?).bind id).isSome → wasm_vfs_dup2 p fd fd = (fd, p))
    ∧ (((p.fdTable[usizeOfInt fd]?).bind id) = none → wasm_vfs_dup2 p fd fd = (-1, p)) := by
  have hu : usizeOfInt fd < p.fdTable.length := by
    rw [hlen, usizeOfInt_toNat h0 (by omega)]
    omega
  constructor
  · intro hsome
    unfold wasm_vfs_dup2
    rw [if_pos ⟨hu, hu⟩]
    match hx : (p.fdTable[usizeOfInt fd]?).bind id with
    | none => rw [hx] at hsome; simp at hsome
    | some n => simp
  · intro hnone
    unfold wasm_vfs_dup2
    rw [if_pos ⟨hu, hu⟩, hnone]

/-- C8 witness: on the fresh process state, descriptor 3 is unbound and
`dup2(3, 3)` returns −1 leaving the state unchanged. -/
theorem c8_dup2_self_noop_witness :
    ((Proc.start.fdTable[usizeOfInt 3]?).bind id = none)
    ∧ wasm_vfs_dup2 Proc.start 3 3 = (-1, Proc.start) :=
  ⟨by decide,
   (c8_dup2_self_noop Proc.start 3 (by decide) (by decide) (by decide)).2 (by decide)⟩

/-- C10 (confirmed): a negative offset is reinterpreted as a huge
unsigned position, so `pread64` returns 0, `pwrite64` returns `count`
(its −1 branch is not taken) after resizing the payload to
`(offset as usize) + count ≥ 2^63` bytes, while `truncate`,
`ftruncate` and `fallocate` all reject the same negative argument
with −1. -/
theorem c10_negative_offset_unchecked (p : Proc) (fd : Int) (h : OpenFileHandle)
    (data buf : List Byte) (count : Nat) (offset : Int) (path : String)
    (hh : hmGet p.openFiles fd = some h)
    (hd : alGet p.fs.files h.inode_number = some data)
    (hneg : offset < 0) (hrange : -(2 ^ 63) ≤ offset)
    (hlen : data.length < 2 ^ 63) :
    (wasm_vfs_pread64 p fd count offset).1 = 0
    ∧ (wasm_vfs_pwrite64 p fd buf count offset).1 = (count : Int)
    ∧ (alGet (wasm_vfs_pwrite64 p fd buf count offset).2.fs.files h.inode_number).map
        List.length = some (usizeOfInt offset + count)
    ∧ 2 ^ 63 ≤ usizeOfInt offset + count
    ∧ (wasm_vfs_ftruncate p fd offset).1 = -1
    ∧ (wasm_vfs_truncate p path offset).1 = -1
    ∧ (wasm_vfs_fallocate p fd 0 offset 0).1 = -1 := by
  have hbig : 2 ^ 63 ≤ usizeOfInt offset := usizeOfInt_neg_ge hneg hrange
  have hgt : data.length < usizeOfInt offset := by omega
  have hcondr : data.length ≤ usizeOfInt offset := by omega
  have hcond : usizeOfInt offset + count > data.length := by omega
  refine ⟨?_, ?_, ?_, by omega, ?_, ?_, ?_⟩
  · unfold wasm_vfs_pread64
    simp [hh, hd, hcondr]
  · unfold wasm_vfs_pwrite64
    simp [hh, hd]
  · unfold wasm_vfs_pwrite64
    simp only [hh, hd]
    rw [if_pos hcond]
    rw [alGet_alUpdate_self, hd]
    show some (List.length (listStore (data ++ List.replicate (usizeOfInt offset + count - data.length) 0) (usizeOfInt offset) (List.take count buf))) = _
    congr 1
    rw [length_listStore]
    · simp
      omega
    · simp
      omega
  · unfold wasm_vfs_ftruncate
    rw [if_pos hneg]
  · unfold wasm_vfs_truncate
    match hx : p.fs.lookup_inode_by_path (p.get_absolute_path path) with
    | none => simp [hx]
    | some n => simp [hx, hneg]
  · unfold wasm_vfs_fallocate
    rw [if_pos (Or.inl hneg)]

/-- C6 (confirmed): `pread64` leaves the whole state untouched, and
`pwrite64` leaves the handle (in particular its position) untouched
while growing the payload to `max (len) (offset + count)` and setting
the inode size to the new payload length; an `lseek(fd, 0, SEEK_CUR)`
after the `pwrite64` returns the pre-call position. -/
theorem c6_pwrite_pread_keep_position (p : Proc) (fd : Int) (h : OpenFileHandle)
    (data buf : List Byte) (count : Nat) (offset : Int) (ino : Inode)
    (hh : hmGet p.openFiles fd = some h)
    (hd : alGet p.fs.files h.inode_number = some data)
    (hino : p.fs.inodes[h.inode_number]? = some ino)
    (hoff : 0 ≤ offset) (hofflt : offset < 2 ^ 63) (hpos : h.position < 2 ^ 63) :
    (wasm_vfs_pread64 p fd count offset).2.2 = p
    ∧ hmGet (wasm_vfs_pwrite64 p fd buf count offset).2.openFiles fd = some h
    ∧ (alGet (wasm_vfs_pwrite64 p fd buf count offset).2.fs.files h.inode_number).map
        List.length = some (max data.length (usizeOfInt offset + count))
    ∧ ((wasm_vfs_pwrite64 p fd buf count offset).2.fs.inodes[h.inode_number]?).map Inode.size
        = some (max data.length (usizeOfInt offset + count))
    ∧ (wasm_vfs_lseek (wasm_vfs_pwrite64 p fd buf count offset).2 fd 0 1).1
        = (h.position : Int) := by
  have htake : (buf.take count).length ≤ count := by simp
  have hlen2 : ∀ hc : usizeOfInt offset + count > data.length,
      (listStore (data ++ List.replicate (usizeOfInt offset + count - data.length) 0)
        (usizeOfInt offset) (buf.take count)).length
      = max data.length (usizeOfInt offset + count) := by
    intro hc
    rw [length_listStore]
    · simp
      omega
    · simp
      omega
  have hlen3 : ∀ hc : ¬ usizeOfInt offset + count > data.length,
      (listStore data (usizeOfInt offset) (buf.take count)).length
      = max data.length (usizeOfInt offset + count) := by
    intro hc
    rw [length_listStore]
    · omega
    · omega
  refine ⟨?_, ?_, ?_, ?_, ?_⟩
  · unfold wasm_vfs_pread64
    simp only [hh, hd]
    by_cases hc : data.length ≤ usizeOfInt offset
    · rw [if_pos hc]
    · rw [if_neg hc]
  · unfold wasm_vfs_pwrite64
    simp only [hh, hd]
  · unfold wasm_vfs_pwrite64
    simp only [hh, hd]
    by_cases hc : usizeOfInt offset + count > data.length
    · rw [if_pos hc]
      rw [alGet_alUpdate_self, hd]
      simp only [Option.map_some']
      rw [hlen2 hc]
    · rw [if_neg hc]
      rw [alGet_alUpdate_self, hd]
      simp only [Option.map_some']
      rw [hlen3 hc]
  · unfold wasm_vfs_pwrite64
    simp only [hh, hd]
    by_cases hc : usizeOfInt offset + count > data.length
    · rw [if_pos hc]
      rw [updInode_getElem_self, hino]
      simp only [Option.map_some']
      rw [alGet_alUpdate_self, hd]
      simp only [Option.map_some', Option.getD_some]
      rw [hlen2 hc]
    · rw [if_neg hc]
      rw [updInode_getElem_self, hino]
      simp only [Option.map_some']
      rw [alGet_alUpdate_self, hd]
      simp only [Option.map_some', Option.getD_some]
      rw [hlen3 hc]
  · unfold wasm_vfs_pwrite64
    simp only [hh, hd]
    unfold wasm_vfs_lseek
    simp only [hh, alGet_alUpdate_self, hd]
    norm_num
    rw [i64OfNat_small hpos]
    rw [if_neg (by omega)]

/-- C10 witness: fd 3 on the "hello" file with offset −1. -/
theorem c10_negative_offset_unchecked_witness :
    ((-1 : Int) < 0) ∧
    ((wasm_vfs_pread64 procB 3 1 (-1)).1 = 0
     ∧ (wasm_vfs_pwrite64 procB 3 [7] 1 (-1)).1 = ((1 : Nat) : Int)
     ∧ (alGet (wasm_vfs_pwrite64 procB 3 [7] 1 (-1)).2.fs.files 1).map List.length
         = some (usizeOfInt (-1) + 1)
     ∧ 2 ^ 63 ≤ usizeOfInt (-1) + 1
     ∧ (wasm_vfs_ftruncate procB 3 (-1)).1 = -1
     ∧ (wasm_vfs_truncate procB "/x" (-1)).1 = -1
     ∧ (wasm_vfs_fallocate procB 3 0 (-1) 0).1 = -1) :=
  ⟨by decide, c10_negative_offset_unchecked procB 3 ⟨1, 5, false⟩ [104, 101, 108, 108, 111]
    [7] 1 (-1) "/x" (by decide) (by decide) (by decide) (by decide) (by decide)⟩

/-- C6 witness: fd 3 on the "hello" file, `pwrite64` of two bytes at
offset 1. -/
theorem c6_pwrite_pread_keep_position_witness :
    ((0 : Int) ≤ 1) ∧
    ((wasm_vfs_pread64 procB 3 2 1).2.2 = procB
     ∧ hmGet (wasm_vfs_pwrite64 procB 3 [1, 2] 2 1).2.openFiles 3 = some ⟨1, 5, false⟩
     ∧ (alGet (wasm_vfs_pwrite64 procB 3 [1, 2] 2 1).2.fs.files 1).map List.length
         = some (max 5 (usizeOfInt 1 + 2))
     ∧ ((wasm_vfs_pwrite64 procB 3 [1, 2] 2 1).2.fs.inodes[1]?).map Inode.size
         = some (max 5 (usizeOfInt 1 + 2))
     ∧ (wasm_vfs_lseek (wasm_vfs_pwrite64 procB 3 [1, 2] 2 1).2 3 0 1).1
         = ((5 : Nat) : Int)) :=
  ⟨by decide, c6_pwrite_pread_keep_position procB 3 ⟨1, 5, false⟩ [104, 101, 108, 108, 111]
    [1, 2] 2 1 ⟨1, 5, 420, 0, 0, 0, 0, 0, InodeKind.file⟩ (by decide) (by decide) (by decide)
    (by decide) (by decide) (by decide)⟩

/-- C9 (confirmed): in a state whose 256-slot open-file map is full and
whose FD table still has a free slot, `open` of an existing path still
allocates and returns a nonnegative descriptor, but the handle
insertion is silently dropped, so `read` and `write` on the returned
descriptor fail with −1. -/
theorem c9_open_files_cap_drop (p : Proc) (path : String) (n fdn : Nat)
    (hfull : ∀ s ∈ p.openFiles, s.isSome)
    (hlook : p.fs.lookup_inode_by_path path = some n)
    (halloc : p.allocate_fd = some fdn)
    (hkey : hmGet p.openFiles (fdn : Int) = none) :
    (wasm_vfs_open p path 0 0).1 = (fdn : Int)
    ∧ 0 ≤ (wasm_vfs_open p path 0 0).1
    ∧ (wasm_vfs_read (wasm_vfs_open p path 0 0).2 (fdn : Int) 1).1 = -1
    ∧ (wasm_vfs_write (wasm_vfs_open p path 0 0).2 (fdn : Int) [0] 1).1 = -1 := by
  have halloc2 : allocateFdAux p.fdTable 0 = some fdn := halloc
  have hge : 3 ≤ fdn := allocateFdAux_ge p.fdTable 0 fdn halloc2
  have hins : ∀ v : OpenFileHandle, hmInsert p.openFiles ((fdn : Nat) : Int) v = p.openFiles :=
    fun v => hmInsert_full_absent p.openFiles _ v hfull hkey
  have h1 : ¬ (Nat.land 0 O_CREAT = O_CREAT) := by decide
  have h2 : ¬ (Nat.land 0 O_TRUNC = O_TRUNC) := by decide
  have h3 : ¬ (Nat.land 0 O_APPEND = O_APPEND) := by decide
  have hfst : (wasm_vfs_open p path 0 0).1 = (fdn : Int) := by
    unfold wasm_vfs_open
    simp [hlook, h1, h2, h3, Proc.allocate_fd, halloc2]
  have hof : (wasm_vfs_open p path 0 0).2.openFiles = p.openFiles := by
    unfold wasm_vfs_open
    simp [hlook, h1, h2, h3, Proc.allocate_fd, halloc2, hins]
  refine ⟨hfst, ?_, ?_, ?_⟩
  · rw [hfst]
    simp
  · unfold wasm_vfs_read
    rw [hof, hkey]
  · unfold wasm_vfs_write
    rw [if_neg (by omega), hof, hkey]

/-- C9 witness: `procFull` has all 256 handle slots occupied; opening
`"/a"` returns descriptor 3, and reading or writing descriptor 3 then
fails. -/
theorem c9_open_files_cap_drop_witness :
    (∀ s ∈ procFull.openFiles, s.isSome) ∧
    ((wasm_vfs_open procFull "/a" 0 0).1 = ((3 : Nat) : Int)
     ∧ 0 ≤ (wasm_vfs_open procFull "/a" 0 0).1
     ∧ (wasm_vfs_read (wasm_vfs_open procFull "/a" 0 0).2 ((3 : Nat) : Int) 1).1 = -1
     ∧ (wasm_vfs_write (wasm_vfs_open procFull "/a" 0 0).2 ((3 : Nat) : Int) [0] 1).1 = -1) :=
  ⟨by decide, c9_open_files_cap_drop procFull "/a" 1 3 (by decide) (by decide)
    (by decide) (by decide)⟩

/-- C7 (amended): when the resolved old and new paths differ and the
path index has no duplicate keys, `rename` unbinds the old path,
binds the new path to the same inode number, preserves the inode
number observed through `stat`, and makes `stat` of the old path fail;
when the old path is unbound, `rename` returns −1 and leaves the state
unchanged. -/
theorem c7_rename_distinct_paths (p : Proc) (oldpath newpath : String)
    (hne : p.get_absolute_path oldpath ≠ p.get_absolute_path newpath)
    (hnodup : (p.fs.path_map.map Prod.fst).Nodup) :
    (∀ nn ino, p.fs.lookup_inode_by_path (p.get_absolute_path oldpath) = some nn →
        p.fs.inodes[nn]? = some ino →
        (wasm_vfs_rename p oldpath newpath).1 = 0
        ∧ (wasm_vfs_rename p oldpath newpath).2.fs.lookup_inode_by_path
            (p.get_absolute_path oldpath) = none
        ∧ (wasm_vfs_rename p oldpath newpath).2.fs.lookup_inode_by_path
            (p.get_absolute_path newpath) = some nn
        ∧ (wasm_vfs_stat (wasm_vfs_rename p oldpath newpath).2 newpath).2.map Stat.st_ino
            = (wasm_vfs_stat p oldpath).2.map Stat.st_ino
        ∧ (wasm_vfs_stat p oldpath).2.map Stat.st_ino = some ino.number
        ∧ (wasm_vfs_stat (wasm_vfs_rename p oldpath newpath).2 oldpath).1 = -1)
    ∧ (p.fs.lookup_inode_by_path (p.get_absolute_path oldpath) = none →
        wasm_vfs_rename p oldpath newpath = (-1, p)) := by
  constructor
  · intro nn ino hlook hino
    have hlookraw : alGet p.fs.path_map (p.get_absolute_path oldpath) = some nn := hlook
    have h1 : (wasm_vfs_rename p oldpath newpath).1 = 0 := by
      unfold wasm_vfs_rename
      simp [FileSystem.lookup_inode_by_path, hlookraw]
    have hpm : (wasm_vfs_rename p oldpath newpath).2.fs.path_map
        = alInsert (alRemove p.fs.path_map (p.get_absolute_path oldpath))
            (p.get_absolute_path newpath) nn := by
      unfold wasm_vfs_rename
      simp [FileSystem.lookup_inode_by_path, hlookraw]
    have hcd : (wasm_vfs_rename p oldpath newpath).2.fs.current_directory
        = p.fs.current_directory := by
      unfold wasm_vfs_rename
      simp [FileSystem.lookup_inode_by_path, hlookraw]
    have hinodes : (wasm_vfs_rename p oldpath newpath).2.fs.inodes = p.fs.inodes := by
      unfold wasm_vfs_rename
      simp [FileSystem.lookup_inode_by_path, hlookraw]
    have habs2 : ∀ q : String, (wasm_vfs_rename p oldpath newpath).2.get_absolute_path q
        = p.get_absolute_path q := by
      intro q
      unfold Proc.get_absolute_path pathJoin
      rw [hcd]
    have hlook2 : alGet (alInsert (alRemove p.fs.path_map (p.get_absolute_path oldpath))
        (p.get_absolute_path newpath) nn) (p.get_absolute_path oldpath) = none := by
      rw [alGet_alInsert_ne _ _ _ _ (Ne.symm hne)]
      exact alGet_alRemove_self p.fs.path_map _ hnodup
    have hlook3 : alGet (alInsert (alRemove p.fs.path_map (p.get_absolute_path oldpath))
        (p.get_absolute_path newpath) nn) (p.get_absolute_path newpath) = some nn :=
      alGet_alInsert_self _ _ _
    have hstatold : (wasm_vfs_stat p oldpath).2.map Stat.st_ino = some ino.number := by
      unfold wasm_vfs_stat
      simp only [FileSystem.lookup_inode_by_path]
      rw [hlookraw]
      simp [hino, fillStatFromInode]
    refine ⟨h1, ?_, ?_, ?_, hstatold, ?_⟩
    · show alGet (wasm_vfs_rename p oldpath newpath).2.fs.path_map _ = none
      rw [hpm]
      exact hlook2
    · show alGet (wasm_vfs_rename p oldpath newpath).2.fs.path_map _ = some nn
      rw [hpm]
      exact hlook3
    · unfold wasm_vfs_stat
      simp only [FileSystem.lookup_inode_by_path]
      rw [habs2, hpm, hlook3, hlookraw]
      simp [hinodes, hino]
    · unfold wasm_vfs_stat
      simp only [FileSystem.lookup_inode_by_path]
      rw [habs2, hpm, hlook2]
  · intro hnone
    unfold wasm_vfs_rename
    simp only [hnone]

/-- C7 witness: with `"/a"` and no `"/b"` in the fresh created state,
`rename("/a", "/b")` rebinds inode 1 and invalidates `"/a"`; renaming
the absent path `"/c"` fails and changes nothing. -/
theorem c7_rename_distinct_paths_witness :
    (procA.get_absolute_path "/a" ≠ procA.get_absolute_path "/b") ∧
    ((∀ nn ino, procA.fs.lookup_inode_by_path (procA.get_absolute_path "/a") = some nn →
        procA.fs.inodes[nn]? = some ino →
        (wasm_vfs_rename procA "/a" "/b").1 = 0
        ∧ (wasm_vfs_rename procA "/a" "/b").2.fs.lookup_inode_by_path
            (procA.get_absolute_path "/a") = none
        ∧ (wasm_vfs_rename procA "/a" "/b").2.fs.lookup_inode_by_path
            (procA.get_absolute_path "/b") = some nn
        ∧ (wasm_vfs_stat (wasm_vfs_rename procA "/a" "/b").2 "/b").2.map Stat.st_ino
            = (wasm_vfs_stat procA "/a").2.map Stat.st_ino
        ∧ (wasm_vfs_stat procA "/a").2.map Stat.st_ino = some ino.number
        ∧ (wasm_vfs_stat (wasm_vfs_rename procA "/a" "/b").2 "/a").1 = -1)
     ∧ (procA.fs.lookup_inode_by_path (procA.get_absolute_path "/c") = none →
        wasm_vfs_rename procA "/c" "/b" = (-1, procA))) :=
  ⟨by decide,
   (c7_rename_distinct_paths procA "/a" "/b" (by decide) (by decide)).1,
   (c7_rename_distinct_paths procA "/c" "/b" (by decide) (by decide)).2⟩

theorem write_lseek_read_aux (p : Proc) (fd : Int) (h : OpenFileHandle)
    (data buf : List Byte) (n pos0 : Nat)
    (hfd : ¬ fd = 1)
    (hh : hmGet p.openFiles fd = some h)
    (hd : alGet p.fs.files h.inode_number = some data)
    (hn : 0 < n) (hbuf : buf.length = n)
    (hb : pos0 + n < 2 ^ 63) (hdlen : data.length < 2 ^ 63)
    (hpos0 : (if h.append_mode then data.length else h.position) = pos0) :
    (wasm_vfs_write p fd buf n).1 = (n : Int)
    ∧ (wasm_vfs_read (wasm_vfs_lseek (wasm_vfs_write p fd buf n).2 fd (-(n : Int)) 1).2 fd n).1
        = (n : Int)
    ∧ (wasm_vfs_read (wasm_vfs_lseek (wasm_vfs_write p fd buf n).2 fd (-(n : Int)) 1).2 fd n).2.1
        = buf := by
  have hbufeq : buf.take n = buf := by
    rw [← hbuf]
    exact List.take_length buf
  have hw1 : (wasm_vfs_write p fd buf n).1 = (n : Int) := by
    unfold wasm_vfs_write
    rw [if_neg hfd]
    simp [hh, hd]
  have hwo : (wasm_vfs_write p fd buf n).2.openFiles
      = hmUpdate p.openFiles fd (fun h2 => { h2 with position := pos0 + n }) := by
    unfold wasm_vfs_write
    rw [if_neg hfd]
    simp [hh, hd, hpos0]
  have hwf : (wasm_vfs_write p fd buf n).2.fs.files
      = alUpdate p.fs.files h.inode_number (fun _ =>
          listStore (if pos0 + n > data.length then
            data ++ List.replicate (pos0 + n - data.length) 0 else data) pos0 (buf.take n)) := by
    unfold wasm_vfs_write
    rw [if_neg hfd]
    simp [hh, hd, hpos0]
  have hglen : pos0 + n ≤ (if pos0 + n > data.length then
      data ++ List.replicate (pos0 + n - data.length) 0 else data).length
      ∧ (if pos0 + n > data.length then
          data ++ List.replicate (pos0 + n - data.length) 0 else data).length < 2 ^ 63 := by
    by_cases hc : pos0 + n > data.length
    · simp only [if_pos hc, List.length_append, List.length_replicate]
      omega
    · simp only [if_neg hc]
      omega
  have htk : (buf.take n).length ≤ n := by simp
  have hd2len : (listStore (if pos0 + n > data.length then
      data ++ List.replicate (pos0 + n - data.length) 0 else data) pos0 (buf.take n)).length
      = (if pos0 + n > data.length then
          data ++ List.replicate (pos0 + n - data.length) 0 else data).length := by
    apply length_listStore
    omega
  have hdrop : ((listStore (if pos0 + n > data.length then
      data ++ List.replicate (pos0 + n - data.length) 0 else data) pos0 (buf.take n)).drop
        pos0).take n = buf := by
    rw [drop_listStore _ _ _ (by omega)]
    rw [hbufeq]
    rw [← hbuf, List.take_left]
  have hlo : hmGet (wasm_vfs_write p fd buf n).2.openFiles fd
      = some { h with position := pos0 + n } := by
    rw [hwo, hmGet_hmUpdate_self, hh]
    rfl
  have hlf : alGet (wasm_vfs_write p fd buf n).2.fs.files h.inode_number
      = some (listStore (if pos0 + n > data.length then
          data ++ List.replicate (pos0 + n - data.length) 0 else data) pos0 (buf.take n)) := by
    rw [hwf, alGet_alUpdate_self, hd]
    rfl
  have hnp : i64OfNat (pos0 + n) + -(n : Int) = ((pos0 : Nat) : Int) := by
    rw [i64OfNat_small hb]
    push_cast
    omega
  have hseekof : (wasm_vfs_lseek (wasm_vfs_write p fd buf n).2 fd (-(n : Int)) 1).2.openFiles
      = hmUpdate (wasm_vfs_write p fd buf n).2.openFiles fd
          (fun h2 => { h2 with position := pos0 }) := by
    unfold wasm_vfs_lseek
    simp only [hlo, hlf]
    norm_num
    rw [hnp]
    rw [if_neg (by omega)]
    simp
  have hseekfs : (wasm_vfs_lseek (wasm_vfs_write p fd buf n).2 fd (-(n : Int)) 1).2.fs
      = (wasm_vfs_write p fd buf n).2.fs := by
    unfold wasm_vfs_lseek
    simp only [hlo, hlf]
    norm_num
    rw [hnp]
    rw [if_neg (by omega)]
  have hro : hmGet (wasm_vfs_lseek (wasm_vfs_write p fd buf n).2 fd (-(n : Int)) 1).2.openFiles fd
      = some { h with position := pos0 } := by
    rw [hseekof, hmGet_hmUpdate_self, hlo]
    rfl
  have hrf : alGet (wasm_vfs_lseek (wasm_vfs_write p fd buf n).2 fd
      (-(n : Int)) 1).2.fs.files h.inode_number
      = some (listStore (if pos0 + n > data.length then
          data ++ List.replicate (pos0 + n - data.length) 0 else data) pos0 (buf.take n)) := by
    rw [hseekfs]
    exact hlf
  have hmin : min n ((listStore (if pos0 + n > data.length then
      data ++ List.replicate (pos0 + n - data.length) 0 else data) pos0
        (buf.take n)).length - pos0) = n := by omega
  refine ⟨hw1, ?_, ?_⟩
  · unfold wasm_vfs_read
    simp only [hro, hrf]
    rw [if_neg (by omega)]
    show ((min n _ : Nat) : Int) = (n : Int)
    rw [hmin]
  · unfold wasm_vfs_read
    simp only [hro, hrf]
    rw [if_neg (by omega)]
    show (_ : List Byte) = buf
    rw [hmin]
    exact hdrop

/-- C4 (confirmed): for every open regular-file descriptor (fd ≠ 1)
and non-empty buffer, `write(fd, buf, n)` returns n, and
`lseek(fd, −n, SEEK_CUR)` followed by `read(fd, n)` returns n and
yields exactly the written bytes; and the literal
creat/write/close/open/read round-trip recovers "hello" with
`stat` reporting size 5. -/
theorem c4_write_lseek_read_roundtrip (p : Proc) (fd : Int) (h : OpenFileHandle)
    (data buf : List Byte) (n : Nat)
    (hfd : fd ≠ 1)
    (hh : hmGet p.openFiles fd = some h)
    (hd : alGet p.fs.files h.inode_number = some data)
    (hn : 0 < n) (hbuf : buf.length = n)
    (hb1 : h.position + n < 2 ^ 63) (hb2 : data.length + n < 2 ^ 63) :
    ((wasm_vfs_write p fd buf n).1 = (n : Int)
     ∧ (wasm_vfs_read (wasm_vfs_lseek (wasm_vfs_write p fd buf n).2 fd (-(n : Int)) 1).2 fd n).1
         = (n : Int)
     ∧ (wasm_vfs_read (wasm_vfs_lseek (wasm_vfs_write p fd buf n).2 fd (-(n : Int)) 1).2 fd n).2.1
         = buf)
    ∧ ((wasm_vfs_read (wasm_vfs_open (wasm_vfs_close procB 3).2 "/a" 0 0).2 3 5).1 = 5
       ∧ (wasm_vfs_read (wasm_vfs_open (wasm_vfs_close procB 3).2 "/a" 0 0).2 3 5).2.1
           = [104, 101, 108, 108, 111]
       ∧ (wasm_vfs_stat (wasm_vfs_open (wasm_vfs_close procB 3).2 "/a" 0 0).2 "/a").2.map
           Stat.st_size = some 5) := by
  constructor
  · apply write_lseek_read_aux p fd h data buf n
      (if h.append_mode then data.length else h.position) hfd hh hd hn hbuf ?_ (by omega) rfl
    by_cases ha : h.append_mode
    · rw [if_pos ha]
      omega
    · rw [if_neg ha]
      omega
  · decide

/-- C4 witness: writing "hello" on the freshly created `"/a"` (fd 3,
position 0) and seeking back recovers the bytes. -/
theorem c4_write_lseek_read_roundtrip_witness :
    (hmGet procA.openFiles 3 = some ⟨1, 0, false⟩) ∧
    (((wasm_vfs_write procA 3 [104, 101, 108, 108, 111] 5).1 = ((5 : Nat) : Int)
      ∧ (wasm_vfs_read (wasm_vfs_lseek (wasm_vfs_write procA 3 [104, 101, 108, 108, 111] 5).2 3
          (-((5 : Nat) : Int)) 1).2 3 5).1 = ((5 : Nat) : Int)
      ∧ (wasm_vfs_read (wasm_vfs_lseek (wasm_vfs_write procA 3 [104, 101, 108, 108, 111] 5).2 3
          (-((5 : Nat) : Int)) 1).2 3 5).2.1 = [104, 101, 108, 108, 111])
     ∧ ((wasm_vfs_read (wasm_vfs_open (wasm_vfs_close procB 3).2 "/a" 0 0).2 3 5).1 = 5
        ∧ (wasm_vfs_read (wasm_vfs_open (wasm_vfs_close procB 3).2 "/a" 0 0).2 3 5).2.1
            = [104, 101, 108, 108, 111]
        ∧ (wasm_vfs_stat (wasm_vfs_open (wasm_vfs_close procB 3).2 "/a" 0 0).2 "/a").2.map
            Stat.st_size = some 5)) :=
  ⟨by decide,
   c4_write_lseek_read_roundtrip procA 3 ⟨1, 0, false⟩ [] [104, 101, 108, 108, 111] 5
     (by decide) (by decide) (by decide) (by decide) (by decide) (by decide) (by decide)⟩

/-- C5 (amended): for distinct descriptors in_fd ≠ out_fd,
`sendfile(out_fd, in_fd, offset, count)` and
`splice(in_fd, offset, out_fd, NULL, count, 0)` return the same value,
leave the offset cell with the same content, and produce the same final
process state. -/
theorem c5_sendfile_splice_equiv (p : Proc) (out_fd in_fd : Int) (offset : Option Int)
    (count : Nat) (hne : in_fd ≠ out_fd) :
    (wasm_vfs_sendfile p out_fd in_fd offset count).1
      = (wasm_vfs_splice p in_fd offset out_fd none count 0).1
    ∧ (wasm_vfs_sendfile p out_fd in_fd offset count).2.1
      = (wasm_vfs_splice p in_fd offset out_fd none count 0).2.1
    ∧ (wasm_vfs_sendfile p out_fd in_fd offset count).2.2
      = (wasm_vfs_splice p in_fd offset out_fd none count 0).2.2.2 := by
  unfold wasm_vfs_sendfile wasm_vfs_splice
  cases hin : hmGet p.openFiles in_fd with
  | none => simp
  | some hIn =>
    cases hout : hmGet p.openFiles out_fd with
    | none => simp
    | some hOut =>
      cases hind : alGet p.fs.files hIn.inode_number with
      | none => simp [hind]
      | some in_data =>
        simp only [hind]
        cases offset with
        | none =>
          by_cases hrp : in_data.length ≤ hIn.position
          · simp [hrp]
          · simp only [if_neg hrp]
            cases houtd : alGet p.fs.files hOut.inode_number with
            | none => simp [houtd]
            | some out_data =>
              simp only [houtd]
              have hof1 : ∀ f : OpenFileHandle → OpenFileHandle,
                  hmGet (hmUpdate p.openFiles in_fd f) out_fd = some hOut := by
                intro f
                rw [hmGet_hmUpdate_ne _ _ _ _ hne]
                exact hout
              refine ⟨by simp [hof1], by simp [hof1], ?_⟩
              simp only [Option.isNone_none, if_true, ite_true, Bool.true_eq]
              rw [hof1]
              rw [hmUpdate_hmUpdate]
              congr 1
              apply congrArg
              funext h2
              by_cases happ : hOut.append_mode = true
              · simp [happ]
              · simp [happ]
        | some o =>
          by_cases hrp : in_data.length ≤ usizeOfInt o
          · simp [hrp]
          · simp only [if_neg hrp]
            cases houtd : alGet p.fs.files hOut.inode_number with
            | none => simp [houtd]
            | some out_data =>
              simp only [houtd]
              refine ⟨by simp [hout], by simp [hout], ?_⟩
              simp only [Option.isNone_some, Bool.false_eq_true, if_false, ite_false]
              rw [hout]
              rw [hmUpdate_hmUpdate]
              congr 1
              apply congrArg
              funext h2
              by_cases happ : hOut.append_mode = true
              · simp [happ]
              · simp [happ]

/-- C5 witness: copying four bytes of `"/src"` (fd 3) into `"/dst"`
(fd 4) with a null offset pointer gives identical results for sendfile
and splice. -/
theorem c5_sendfile_splice_equiv_witness :
    ((3 : Int) ≠ 4) ∧
    ((wasm_vfs_sendfile procSrcDst 4 3 none 4).1
       = (wasm_vfs_splice procSrcDst 3 none 4 none 4 0).1
     ∧ (wasm_vfs_sendfile procSrcDst 4 3 none 4).2.1
       = (wasm_vfs_splice procSrcDst 3 none 4 none 4 0).2.1
     ∧ (wasm_vfs_sendfile procSrcDst 4 3 none 4).2.2
       = (wasm_vfs_splice procSrcDst 3 none 4 none 4 0).2.2.2) :=
  ⟨by decide, c5_sendfile_splice_equiv procSrcDst 4 3 none 4 (by decide)⟩

end WasmVfs
